import Mathlib

/-!
Shallow embedding of the RAG knowledge-base core of the Creator Coach System
(`src/knowledge_base/rag_system.py`, class `RAGKnowledgeBase`), together with
theorems settling the specification claims about it.

Python floats are modelled as exact rationals (`ℚ`), Python ints as `ℤ`/`ℕ`,
Python `None`-able dict fields as `Option`, and fallible code as `Option`/`Except`
(`none`/`.error` marks a raised exception). The external tokenizer (tiktoken),
the remote embedding service, and the local sentence-transformer model are
modelled as explicit function parameters, with their documented properties as
hypotheses where a claim needs them.
-/

namespace CreatorCoach

/-! ### Python string primitives used by the source -/

/-- Python whitespace characters recognised by `str.strip()` / `str.split()`. -/
def isPyWs (c : Char) : Bool :=
  c = ' ' || c = '\t' || c = '\n' || c = '\x0d' || c = '\x0b' || c = '\x0c'

/-- Strip leading characters satisfying `isPyWs` from a char list. -/
def lStripChars (l : List Char) : List Char := l.dropWhile isPyWs

/-- Strip trailing characters satisfying `isPyWs` from a char list. -/
def rStripChars (l : List Char) : List Char := (l.reverse.dropWhile isPyWs).reverse

/-- Python `str.strip()` on the underlying character list. -/
def stripChars (l : List Char) : List Char := rStripChars (lStripChars l)

/-- Python `str.strip()`. -/
def pyStrip (s : String) : String := String.mk (stripChars s.toList)

/-- Word counting helper: `boundary` is true when the previous character was
whitespace (or we are at the start of the string). -/
def pyWordCountAux : Bool → List Char → ℕ
  | _, [] => 0
  | boundary, c :: cs =>
    if isPyWs c then pyWordCountAux true cs
    else (if boundary then 1 else 0) + pyWordCountAux false cs

/-- Python `len(s.split())`: the number of maximal whitespace-free runs. -/
def pyWordCount (s : String) : ℕ := pyWordCountAux true s.toList

/-- Does `needle` occur at the head of `hay`? -/
def startsWithChars : List Char → List Char → Bool
  | [], _ => true
  | _ :: _, [] => false
  | a :: as, b :: bs => a == b && startsWithChars as bs

/-- Does `needle` occur as a contiguous subsequence of `hay`? -/
def hasSubChars (needle : List Char) : List Char → Bool
  | [] => needle.isEmpty
  | b :: bs => startsWithChars needle (b :: bs) || hasSubChars needle bs

/-- Python `needle in hay` for strings (substring containment). -/
def pyInStr (needle hay : String) : Bool := hasSubChars needle.toList hay.toList

/-- Python `str.lower()` (ASCII case folding, as used on the source's inputs). -/
def pyLower (s : String) : String := String.mk (s.toList.map Char.toLower)

/-- Python truthiness of an optional string: `None` and `""` are falsy. -/
def truthyOpt : Option String → Bool
  | none => false
  | some s => !(s == "")

/-! ### Data model (`Post`, `Chunk`, search results) -/

/-- A scraped post, as the dict consumed by `RAGKnowledgeBase`. Absent dict keys
are `none`; `likes`, `comments` and `engagement_rate` default to `0` via
`post.get(..., 0)` in the source, so they are plain fields here. -/
structure Post where
  post_id : Option String := none
  post_type : Option String := none
  post_date : Option String := none
  caption_text : Option String := none
  transcript : Option String := none
  media_url : Option String := none
  hashtags : List String := []
  likes : ℤ := 0
  comments : ℤ := 0
  engagement_rate : ℚ := 0
deriving DecidableEq, Inhabited

/-- Result of `_extract_post_metadata`. -/
structure PostMetadata where
  post_id : Option String
  post_type : Option String
  post_date : Option String
  likes : ℤ
  comments : ℤ
  hashtags : List String
  media_url : Option String
deriving DecidableEq, Inhabited

/-- Result of the `engagement_metrics` sub-dict of `_create_high_value_chunk`. -/
structure EngagementMetrics where
  likes : ℤ
  comments : ℤ
  engagement_rate : ℚ
deriving DecidableEq, Inhabited

/-- A knowledge chunk dict. `chunk_index` is only set by `_chunk_semantically`
and `engagement_metrics` only by `_create_high_value_chunk`; `content_quality`
is optional because `search_knowledge` reads it with `.get('content_quality', 0.5)`. -/
structure Chunk where
  chunk_text : String
  chunk_type : String
  topic_tags : List String
  post_metadata : PostMetadata
  chunk_index : Option ℕ := none
  engagement_metrics : Option EngagementMetrics := none
  content_quality : Option ℚ := none
deriving DecidableEq, Inhabited

/-- A search result: the chunk dict copied and augmented with
`similarity_score` and `final_score` (`search_knowledge`). -/
structure SearchResult where
  chunk : Chunk
  similarity_score : ℚ
  final_score : ℚ
deriving DecidableEq, Inhabited

/-- Model of `_extract_post_metadata`. -/
def extract_post_metadata (post : Post) : PostMetadata :=
  { post_id := post.post_id
    post_type := post.post_type
    post_date := post.post_date
    likes := post.likes
    comments := post.comments
    hashtags := post.hashtags
    media_url := post.media_url }

/-! ### Quality scorer (`_assess_content_quality`) -/

/-- Model of `_assess_content_quality(text, post)`: additive heuristic quality score,
capped at `1.0` by the final `min`. -/
def assess_content_quality (text : String) (post : Post) : ℚ :=
  let quality_score : ℚ := 0
  let quality_score :=
    if 15 ≤ pyWordCount text ∧ pyWordCount text ≤ 150 then quality_score + 3/10
    else quality_score
  let quality_score :=
    if 1000 < post.likes then quality_score + 4/10
    else if 500 < post.likes then quality_score + 2/10
    else quality_score
  let quality_score :=
    if pyInStr "?" text then quality_score + 1/10 else quality_score
  let quality_score :=
    if (["how to", "tip", "strategy", "step"]).any (fun w => pyInStr w (pyLower text))
    then quality_score + 2/10 else quality_score
  min quality_score 1

/-! ### Tokenizer / chunker (`_chunk_by_tokens`) -/

/-- Fuel-indexed window slicing; the fuel only serves structural recursion and
is always instantiated with the list length, which suffices for `0 < n`. -/
def windowChunksAux (n : ℕ) : ℕ → List α → List (List α)
  | _, [] => []
  | 0, _ :: _ => []
  | fuel + 1, a :: l =>
    if n = 0 then []
    else (a :: l).take n :: windowChunksAux n fuel ((a :: l).drop n)

/-- The window slicing of `for i in range(0, len(tokens), max_tokens):
tokens[i:i + max_tokens]`. For `n = 0` Python's `range` would raise
`ValueError`; the source only ever calls it with `n ∈ {100, 200, 300}`,
and every theorem below assumes `0 < n`. -/
def windowChunks (n : ℕ) (l : List α) : List (List α) :=
  windowChunksAux n l.length l

/-- A stable sort (insert each element before the first already-placed element
it may precede), modelling CPython's guaranteed-stable `list.sort`: elements
comparing equal keep their original relative order. `le a b` reads "`a` may
come before `b`". -/
def insertSorted (le : α → α → Bool) (a : α) : List α → List α
  | [] => [a]
  | b :: bs => if le a b then a :: b :: bs else b :: insertSorted le a bs

/-- Stable sort of a whole list; see `insertSorted`. -/
def stableSort (le : α → α → Bool) : List α → List α
  | [] => []
  | a :: as => insertSorted le a (stableSort le as)

/-- Model of `_chunk_by_tokens(text, max_tokens)`, parametric in the external tiktoken
encoder/decoder pair. -/
def chunk_by_tokens (enc : String → List ℕ) (dec : List ℕ → String)
    (text : String) (max_tokens : ℕ) : List String :=
  (windowChunks max_tokens (enc text)).map dec

/-- A concrete stand-in tokenizer used for witnesses: one token per character. -/
def charEncode (t : String) : List ℕ := t.toList.map Char.toNat

/-- Decoder matching `charEncode`. -/
def charDecode (l : List ℕ) : String := String.mk (l.map Char.ofNat)

/-! ### Chunk builder (`_chunk_semantically`, `_create_high_value_chunk`,
`_chunk_content_strategically`) -/

/-- Model of `_chunk_semantically(content, post, content_type)`: token-window fragments,
fragments whose stripped text is shorter than 20 characters are skipped, the
rest are stored stripped with a `semantic_<content_type>` tag and a quality
score assessed on the unstripped fragment. -/
def chunk_semantically (enc : String → List ℕ) (dec : List ℕ → String)
    (content : String) (post : Post) (content_type : String) : List Chunk :=
  let chunk_size := if content_type = "transcript" then 200 else 100
  let chunk_texts := chunk_by_tokens enc dec content chunk_size
  chunk_texts.enum.filterMap fun p =>
    if (pyStrip p.2).length < 20 then none
    else some
      { chunk_text := pyStrip p.2
        chunk_type := "semantic_" ++ content_type
        topic_tags := [content_type]
        post_metadata := extract_post_metadata post
        chunk_index := some p.1
        content_quality := some (assess_content_quality p.2 post) }

/-- Model of `_create_high_value_chunk(post)`: `None` when both caption and transcript
are falsy, otherwise one uncut chunk whose text is
`post.get('transcript') or post.get('caption_text')`. -/
def create_high_value_chunk (post : Post) : Option Chunk :=
  if ¬ truthyOpt post.caption_text ∧ ¬ truthyOpt post.transcript then none
  else some
    { chunk_text :=
        if truthyOpt post.transcript then post.transcript.getD ""
        else post.caption_text.getD ""
      chunk_type := "high_value"
      topic_tags := ["viral", "high_engagement"]
      post_metadata := extract_post_metadata post
      engagement_metrics := some
        { likes := post.likes
          comments := post.comments
          engagement_rate := post.engagement_rate }
      content_quality := some 1 }

/-- The per-post body of the loop in `_chunk_content_strategically`. -/
def post_chunks (enc : String → List ℕ) (dec : List ℕ → String) (post : Post) :
    List Chunk :=
  (if truthyOpt post.caption_text then
    chunk_semantically enc dec (post.caption_text.getD "") post "caption"
  else []) ++
  (if truthyOpt post.transcript then
    chunk_semantically enc dec (post.transcript.getD "") post "transcript"
  else []) ++
  (if 1000 < post.likes ∨ 500 < post.engagement_rate then
    match create_high_value_chunk post with
    | some c => [c]
    | none => []
  else [])

/-- Model of `_chunk_content_strategically(posts, coach_profile)`; the `coach_profile`
argument is never read by the source body, so it is omitted. -/
def chunk_content_strategically (enc : String → List ℕ) (dec : List ℕ → String)
    (posts : List Post) : List Chunk :=
  (posts.map (post_chunks enc dec)).flatten

/-! ### Embedder (`_generate_embeddings`) and index build (`_build_faiss_index`) -/

/-- Model of `_generate_embeddings(chunks)` over the chunk texts, parametric in the two
external models. `remote batch = some vs` models a successful
`openai_client.embeddings.create` call for that batch of up to 100 texts
(returning one vector per text); `none` models the exception branch, which
falls back to `sentence_model.encode(batch)`, modelled by applying
`localModel` to each text of the batch. -/
def generate_embeddings (remote : List String → Option (List (List ℚ)))
    (localModel : String → List ℚ) (texts : List String) : List (List ℚ) :=
  ((windowChunks 100 texts).map fun batch =>
    match remote batch with
    | some batch_embeddings => batch_embeddings
    | none => batch.map localModel).flatten

/-- The shape tuple of `np.array(embeddings, dtype='float32')` for a list of
row vectors: `(0,)` when the list is empty, `(rows, cols)` otherwise. -/
def npShape (m : List (List ℚ)) : List ℕ :=
  match m with
  | [] => [0]
  | row :: _ => [m.length, row.length]

deriving instance DecidableEq for Except

/-- The build summary dict returned by `create_knowledge_base`. -/
structure BuildSummary where
  creator_id : ℤ
  total_chunks : ℕ
  chunk_types : List String
  embedding_dimension : ℕ
deriving DecidableEq, Inhabited

/-- Model of `create_knowledge_base(creator_id, posts, coach_profile)` without the
database side effects (`self.db` is `None`) and file save (which happens after
the returned summary's fields are determined). `_build_faiss_index` evaluates
`embeddings.shape[1]`, which raises `IndexError` when the embedding matrix is
empty (its shape is then the 1-tuple `(0,)`); that raised exception is the
`.error` case. The summary's `embedding_dimension` is `self.embedding_dimension`,
set to `1536` in `__init__` and never reassigned. -/
def create_knowledge_base (enc : String → List ℕ) (dec : List ℕ → String)
    (remote : List String → Option (List (List ℚ))) (localModel : String → List ℚ)
    (creator_id : ℤ) (posts : List Post) : Except String BuildSummary :=
  let all_chunks := chunk_content_strategically enc dec posts
  let embeddings := generate_embeddings remote localModel (all_chunks.map Chunk.chunk_text)
  match (npShape embeddings).get? 1 with
  | none => Except.error "IndexError: tuple index out of range"
  | some _dim =>
      Except.ok
        { creator_id := creator_id
          total_chunks := all_chunks.length
          chunk_types := (all_chunks.map Chunk.chunk_type).eraseDups
          embedding_dimension := 1536 }

/-! ### Vector index search (`search_knowledge`) -/

/-- The padding similarity FAISS reports for missing results of an
inner-product index: `-FLT_MAX ≈ -3.4e38`, far below any real inner product.
Modelled as an exact rational of the same magnitude ordering. -/
def PAD_SCORE : ℚ := -(10 ^ 40)

/-- Model of `faiss.IndexFlatIP.search` on an index of `sims.length` vectors, where
`sims.get i` is the inner product of indexed vector `i` with the (normalized)
query: the `min k m` best `(score, index)` pairs sorted by non-increasing
score, padded to exactly `k` entries with `(-FLT_MAX, -1)` when the index
holds fewer than `k` vectors. -/
def faissSearch (sims : List ℚ) (k : ℕ) : List (ℚ × ℤ) :=
  let idxed := sims.enum.map fun p => (p.2, (p.1 : ℤ))
  let sorted := stableSort (fun a b => decide (b.1 ≤ a.1)) idxed
  let top := sorted.take k
  top ++ List.replicate (k - top.length) (PAD_SCORE, -1)

/-- Python list indexing `l[i]`, including negative-index wraparound;
`none` is a raised `IndexError`. -/
def pyIndex (l : List α) (i : ℤ) : Option α :=
  let j : ℤ := if i < 0 then (l.length : ℤ) + i else i
  if 0 ≤ j then l.get? j.toNat else none

/-- The result-collection loop of `search_knowledge`: for each `(score, idx)`
pair, if `idx < len(self.chunk_metadata)` the chunk dict at `idx` is copied and
augmented with `similarity_score` and
`final_score = score + result.get('content_quality', 0.5) * 0.1`.
`none` is a raised exception (Python `chunk_metadata[idx]` out of range). -/
def collectResults (meta : List Chunk) : List (ℚ × ℤ) → Option (List SearchResult)
  | [] => some []
  | (score, idx) :: rest =>
    if idx < (meta.length : ℤ) then
      match pyIndex meta idx with
      | none => none
      | some c =>
        match collectResults meta rest with
        | none => none
        | some rs =>
            some ({ chunk := c
                    similarity_score := score
                    final_score := score + c.content_quality.getD (1/2) * (1/10) } :: rs)
    else collectResults meta rest

/-- Model of `results.sort(key=lambda x: x['final_score'], reverse=True)`: a stable
descending sort on `final_score` (CPython's sort is stable, also with
`reverse=True`). -/
def sortResults (rs : List SearchResult) : List SearchResult :=
  stableSort (fun a b => decide (b.final_score ≤ a.final_score)) rs

/-- Model of `search_knowledge(query, k)`. Here `indexBuilt` models `self.index` being
non-`None`; `meta` is `self.chunk_metadata`; `sims` gives, per indexed vector,
its inner-product similarity with the embedded and normalized query (the query
embedding itself is external — remote service with local fallback — and only
its induced similarities matter here). `none` is a raised exception. -/
def search_knowledge (indexBuilt : Bool) (meta : List Chunk) (sims : List ℚ)
    (k : ℕ) : Option (List SearchResult) :=
  if !indexBuilt then some []
  else (collectResults meta (faissSearch sims k)).map sortResults

/-! ### Knowledge base store (`_save_knowledge_base`, `load_knowledge_base`) -/

/-- The per-creator on-disk state: `faiss_index.bin` (modelled by the vector
count it stores) and `chunk_metadata.json` (the chunk list), each possibly
absent. -/
structure KBFiles where
  faiss_index : Option ℕ
  chunk_metadata : Option (List Chunk)
deriving DecidableEq, Inhabited

/-- The first write of `_save_knowledge_base`: `faiss.write_index(self.index,
f"{kb_dir}/faiss_index.bin")`, an in-place overwrite. -/
def save_step_index (ntotal : ℕ) (fs : KBFiles) : KBFiles :=
  { fs with faiss_index := some ntotal }

/-- The second write of `_save_knowledge_base`: `json.dump(self.chunk_metadata,
f)` into `chunk_metadata.json`, an in-place overwrite. -/
def save_step_metadata (chunks : List Chunk) (fs : KBFiles) : KBFiles :=
  { fs with chunk_metadata := some chunks }

/-- Model of `_save_knowledge_base(creator_id)` when it runs to completion: the two
sequential in-place writes. -/
def save_knowledge_base (ntotal : ℕ) (chunks : List Chunk) (fs : KBFiles) : KBFiles :=
  save_step_metadata chunks (save_step_index ntotal fs)

/-- Model of `load_knowledge_base(creator_id)`: reads both artifacts, returning them
whenever both reads succeed (there is no cross-consistency check); any failure
is caught and reported as `none` (the method returns `False`). -/
def load_knowledge_base (fs : KBFiles) : Option (ℕ × List Chunk) :=
  match fs.faiss_index, fs.chunk_metadata with
  | some ntotal, some chunks => some (ntotal, chunks)
  | _, _ => none

/-! ### Concrete example inputs used by counterexamples and witnesses -/

/-- A stored chunk used to populate example knowledge bases. -/
def exampleChunk : Chunk :=
  { chunk_text := "some stored chunk text here"
    chunk_type := "semantic_caption"
    topic_tags := ["caption"]
    post_metadata := default
    content_quality := some (7/10) }

/-- A viral post whose caption is far below the 20-character noise threshold. -/
def tinyViralPost : Post := { likes := 1500, caption_text := some "tip!" }

/-- The post of spec Scenario A: likes 1500, caption
"Check this out! #growth", no transcript. -/
def scenarioAPost : Post :=
  { likes := 1500, caption_text := some "Check this out! #growth" }

/-- A plain post with a caption long enough to survive the noise filter. -/
def plainPost : Post :=
  { caption_text := some "a sufficiently long plain caption" }

/-- A stored chunk with minimal quality score. -/
def chunkA : Chunk :=
  { chunk_text := "posting cadence advice here"
    chunk_type := "semantic_caption"
    topic_tags := ["caption"]
    post_metadata := default
    content_quality := some 0 }

/-- A stored chunk with maximal quality score. -/
def chunkB : Chunk :=
  { chunk_text := "hook writing advice here"
    chunk_type := "semantic_transcript"
    topic_tags := ["transcript"]
    post_metadata := default
    content_quality := some 1 }

/-- A two-chunk metadata list whose search candidates tie on `final_score`. -/
def w2meta : List Chunk := [chunkA, chunkB]

/-- The candidates `search_knowledge` collects on `w2meta` with similarities
`[9/10, 8/10]`: the quality boost makes both final scores equal (`9/10`). -/
def w2cands : List SearchResult :=
  [{ chunk := chunkA, similarity_score := 9/10, final_score := 9/10 },
   { chunk := chunkB, similarity_score := 8/10, final_score := 9/10 }]

/-- The first chunk built from `plainPost` (a `semantic_caption` chunk). -/
def w5Chunk : Chunk :=
  (chunk_content_strategically charEncode charDecode [plainPost]).headD default

end CreatorCoach

namespace CreatorCoach

/-! ### Helper lemmas: the stable sort -/

/-- Lemma: `insertSorted` produces a permutation of `a :: l`. -/
theorem insertSorted_perm (le : α → α → Bool) (a : α) (l : List α) :
    List.Perm (insertSorted le a l) (a :: l) := by
  induction l with
  | nil => simp [insertSorted]
  | cons b bs ih =>
    by_cases h : le a b
    · simp [insertSorted, h]
    · simp only [insertSorted, h, if_neg, Bool.false_eq_true, ite_false]
      exact (ih.cons b).trans (List.Perm.swap a b bs)

/-- Lemma: `stableSort` produces a permutation of its input. -/
theorem stableSort_perm (le : α → α → Bool) (l : List α) :
    List.Perm (stableSort le l) l := by
  induction l with
  | nil => simp [stableSort]
  | cons a as ih => exact (insertSorted_perm le a (stableSort le as)).trans (ih.cons a)

/-- Inserting into a `le`-sorted list keeps it sorted, for `le` transitive and
total. -/
theorem pairwise_insertSorted {le : α → α → Bool}
    (trans : ∀ x y z, le x y → le y z → le x z)
    (total : ∀ x y, le x y ∨ le y x) (a : α) {l : List α}
    (h : l.Pairwise fun x y => le x y) :
    (insertSorted le a l).Pairwise fun x y => le x y := by
  induction l with
  | nil => simp [insertSorted]
  | cons b bs ih =>
    rcases List.pairwise_cons.mp h with ⟨hb, hbs⟩
    by_cases hab : le a b
    · simp only [insertSorted, hab, if_true]
      refine List.pairwise_cons.mpr ⟨?_, h⟩
      intro y hy
      rcases List.mem_cons.mp hy with rfl | hy
      · exact hab
      · exact trans a b y hab (hb y hy)
    · simp only [insertSorted, hab, Bool.false_eq_true, if_neg, ite_false]
      refine List.pairwise_cons.mpr ⟨?_, ih hbs⟩
      intro y hy
      have hy' := ((insertSorted_perm le a bs).mem_iff).mp hy
      rcases List.mem_cons.mp hy' with rfl | hyb
      · exact (total _ _).resolve_right hab
      · exact hb y hyb

/-- The output of `stableSort` is sorted, for `le` transitive and total. -/
theorem pairwise_stableSort {le : α → α → Bool}
    (trans : ∀ x y z, le x y → le y z → le x z)
    (total : ∀ x y, le x y ∨ le y x) (l : List α) :
    (stableSort le l).Pairwise fun x y => le x y := by
  induction l with
  | nil => simp [stableSort]
  | cons a as ih => exact pairwise_insertSorted trans total a ih

/-- Inserting an element that fails `p` does not disturb the `p`-filtered
subsequence. -/
theorem filter_insertSorted_of_neg {le : α → α → Bool} {p : α → Bool} {a : α}
    (hpa : p a = false) (l : List α) :
    (insertSorted le a l).filter p = l.filter p := by
  induction l with
  | nil => simp [insertSorted, hpa]
  | cons b bs ih =>
    by_cases h : le a b
    · simp [insertSorted, h, List.filter_cons, hpa]
    · simp [insertSorted, h, List.filter_cons, ih]

/-- Inserting an element that satisfies `p` and may precede every `p`-element
places it at the head of the `p`-filtered subsequence. -/
theorem filter_insertSorted_of_pos {le : α → α → Bool} {p : α → Bool} {a : α}
    (hpa : p a = true) (hle : ∀ y, p y = true → le a y = true) (l : List α) :
    (insertSorted le a l).filter p = a :: l.filter p := by
  induction l with
  | nil => simp [insertSorted, hpa]
  | cons b bs ih =>
    by_cases h : le a b
    · simp [insertSorted, h, List.filter_cons, hpa]
    · have hpb : p b = false := by
        by_contra hb
        exact h (hle b (by simpa using hb))
      simp [insertSorted, h, List.filter_cons, hpb, ih]

/-- Stability of `stableSort`: a family of mutually tied elements (any one may
precede any other) is output in its original relative order. -/
theorem filter_stableSort {le : α → α → Bool} {p : α → Bool}
    (hp : ∀ x y, p x = true → p y = true → le x y = true) (l : List α) :
    (stableSort le l).filter p = l.filter p := by
  induction l with
  | nil => simp [stableSort]
  | cons a as ih =>
    by_cases hpa : p a
    · simp only [stableSort, List.filter_cons, hpa, if_true]
      rw [filter_insertSorted_of_pos hpa (fun y hy => hp a y hpa hy), ih]
    · simp only [stableSort, List.filter_cons]
      rw [filter_insertSorted_of_neg (by simpa using hpa), ih]
      simp [hpa]

/-! ### Helper lemmas: Python strip -/

/-- Lemma: `dropWhile` is idempotent. -/
theorem dropWhile_dropWhile (p : α → Bool) (l : List α) :
    (l.dropWhile p).dropWhile p = l.dropWhile p := by
  cases h : l.dropWhile p with
  | nil => rfl
  | cons a as =>
    have hpa : p a = false := by
      have := List.head?_dropWhile_not p l
      rw [h] at this
      simpa using this
    simp [List.dropWhile_cons, hpa]

/-- Lemma: `rStripChars` is idempotent. -/
theorem rStripChars_rStripChars (l : List Char) :
    rStripChars (rStripChars l) = rStripChars l := by
  simp [rStripChars, List.reverse_reverse, dropWhile_dropWhile]

/-- Lemma: `rStripChars l` is a prefix of `l`. -/
theorem rStripChars_isPre (l : List Char) : rStripChars l <+: l := by
  have h := List.dropWhile_suffix (l := l.reverse) isPyWs
  have := List.reverse_prefix.mpr h
  simpa [rStripChars] using this

/-- A list already left-stripped stays left-stripped after right-stripping. -/
theorem lStrip_rStrip_of_lStripped {l : List Char} (hl : lStripChars l = l) :
    lStripChars (rStripChars l) = rStripChars l := by
  cases h : rStripChars l with
  | nil => rfl
  | cons a as =>
    rcases rStripChars_isPre l with ⟨t, ht⟩
    rw [h] at ht
    have hpa : isPyWs a = false := by
      have hl' : l.dropWhile isPyWs = l := hl
      rw [← ht] at hl'
      rw [List.cons_append, List.dropWhile_cons] at hl'
      by_cases hp : isPyWs a
      · exfalso
        rw [if_pos hp] at hl'
        have h1 := congrArg List.length hl'
        have hle := (List.dropWhile_sublist (l := as ++ t) isPyWs).length_le
        simp only [List.length_cons] at h1
        omega
      · simpa using hp
    simp [lStripChars, List.dropWhile_cons, hpa]

/-- Lemma: `stripChars` is idempotent. -/
theorem stripChars_stripChars (l : List Char) :
    stripChars (stripChars l) = stripChars l := by
  have hy : lStripChars (lStripChars l) = lStripChars l :=
    dropWhile_dropWhile isPyWs l
  unfold stripChars
  rw [lStrip_rStrip_of_lStripped hy, rStripChars_rStripChars]

/-- Lemma: `pyStrip` is idempotent (so the length of a stored, already-stripped chunk
text is its trimmed length). -/
theorem pyStrip_pyStrip (s : String) : pyStrip (pyStrip s) = pyStrip s := by
  simp only [pyStrip]
  rw [show (String.mk (stripChars s.toList)).toList = stripChars s.toList from rfl]
  rw [stripChars_stripChars]

/-- Helper: the accumulated (uncapped) quality score is nonnegative. -/
theorem assess_content_quality_nonneg (text : String) (post : Post) :
    0 ≤ assess_content_quality text post := by
  unfold assess_content_quality
  dsimp only
  split_ifs <;> simp <;> norm_num

/-- Claim C3: for every chunk text and every post (including a post with zero
engagement counters and empty text), the quality score returned by
`_assess_content_quality` lies in the closed interval `[0, 1]`: the additive
bonuses are each nonnegative and the final `min` caps the sum at `1.0`. -/
theorem C3_quality_score_bounds (text : String) (post : Post) :
    0 ≤ assess_content_quality text post ∧ assess_content_quality text post ≤ 1 :=
  ⟨assess_content_quality_nonneg text post, min_le_right _ _⟩

/-- Claim C1 (code bug evaluation): on a knowledge base holding `m = 1` indexed
vector, `search_knowledge` with `k = 3` returns 3 results — not
`min 3 1 = 1` — and all three carry the same single chunk: FAISS pads the
missing hits with index `-1` and similarity `-FLT_MAX`, the guard
`idx < len(self.chunk_metadata)` does not exclude `-1`, and Python's negative
indexing maps `-1` to the last chunk. -/
theorem C1_faiss_padding_bug :
    (search_knowledge true [exampleChunk] [9/10] 3).map
      (fun rs => (rs.length, rs.map SearchResult.chunk)) =
    some (3, [exampleChunk, exampleChunk, exampleChunk]) := by with_unfolding_all decide

/-- Claim C7 (code bug evaluation): with no index loaded (`self.index is None`)
`search_knowledge` returns `[]`, but on a loaded index holding zero vectors it
raises `IndexError` (modelled `none`): every padded FAISS hit has index `-1`,
which passes the `idx < len(self.chunk_metadata)` guard, and
`self.chunk_metadata[-1]` on the empty metadata list raises. -/
theorem C7_empty_index_error :
    search_knowledge false ([] : List Chunk) ([] : List ℚ) 5 = some [] ∧
    search_knowledge true ([] : List Chunk) ([] : List ℚ) 5 = none := by with_unfolding_all decide

/-- Helper: every candidate collected by `search_knowledge` carries
`final_score = similarity_score + content_quality.getD 0.5 * 0.1`. -/
theorem collectResults_final_score (meta : List Chunk) (hits : List (ℚ × ℤ)) :
    ∀ (cands : List SearchResult), collectResults meta hits = some cands →
      ∀ r ∈ cands, r.final_score =
        r.similarity_score + r.chunk.content_quality.getD (1/2) * (1/10) := by
  induction hits with
  | nil =>
    intro cands h r hr
    simp only [collectResults, Option.some.injEq] at h
    subst h
    simp at hr
  | cons hit rest ih =>
    intro cands h r hr
    obtain ⟨s, i⟩ := hit
    simp only [collectResults] at h
    by_cases hlt : (i : ℤ) < (meta.length : ℤ)
    · rw [if_pos hlt] at h
      cases hpi : pyIndex meta i with
      | none => rw [hpi] at h; exact absurd h (by simp)
      | some c =>
        rw [hpi] at h
        cases hcr : collectResults meta rest with
        | none => rw [hcr] at h; exact absurd h (by simp)
        | some rs =>
          rw [hcr] at h
          have hc := Option.some.inj h
          subst hc
          rcases List.mem_cons.mp hr with rfl | hr2
          · rfl
          · exact ih rs hcr r hr2
    · rw [if_neg hlt] at h
      exact ih cands h r hr

/-- Claim C2: every search-result candidate gets
`final_score = similarity + quality_score * 0.1` with `quality_score`
defaulting to `0.5` when the chunk stores none, and `search_knowledge` returns
the candidates sorted by non-increasing `final_score` with a stable sort:
candidates of equal `final_score` keep their relative candidate
(similarity-sorted) order. -/
theorem C2_rerank_formula_stable (meta : List Chunk) (sims : List ℚ) (k : ℕ)
    (cands out : List SearchResult)
    (hc : collectResults meta (faissSearch sims k) = some cands)
    (hout : search_knowledge true meta sims k = some out) :
    out = sortResults cands ∧
    (∀ r ∈ cands, r.final_score =
      r.similarity_score + r.chunk.content_quality.getD (1/2) * (1/10)) ∧
    out.Pairwise (fun a b => b.final_score ≤ a.final_score) ∧
    (∀ q : ℚ, out.filter (fun r => decide (r.final_score = q)) =
      cands.filter (fun r => decide (r.final_score = q))) := by
  have hout' : out = sortResults cands := by
    simp only [search_knowledge, Bool.not_true, Bool.false_eq_true, if_neg,
      ite_false, hc, Option.map_some'] at hout
    exact (Option.some.inj hout).symm
  subst hout'
  refine ⟨rfl, collectResults_final_score meta _ cands hc, ?_, ?_⟩
  · have hp := @pairwise_stableSort SearchResult
      (fun a b : SearchResult => decide (b.final_score ≤ a.final_score))
      (fun x y z hxy hyz => by
        simp only [decide_eq_true_eq] at *
        exact le_trans hyz hxy)
      (fun x y => by
        simp only [decide_eq_true_eq]
        exact le_total y.final_score x.final_score)
      cands
    exact hp.imp fun h => of_decide_eq_true h
  · intro q
    exact filter_stableSort
      (p := fun r : SearchResult => decide (r.final_score = q))
      (fun x y hx hy => by
        simp only [decide_eq_true_eq] at *
        rw [hx, hy])
      cands

/-- Claim C2 witness: on a concrete two-chunk knowledge base whose two
candidates tie at `final_score = 9/10`, the returned order is the candidate
order (stability), witnessed through `C2_rerank_formula_stable` with all
hypotheses discharged by evaluation. -/
theorem C2_witness :
    w2cands.Pairwise (fun a b => b.final_score ≤ a.final_score) :=
  (C2_rerank_formula_stable w2meta [9/10, 8/10] 2 w2cands w2cands
    (by with_unfolding_all decide) (by with_unfolding_all decide)).2.2.1

/-- Helper: the shape of any chunk produced by `_chunk_semantically`. -/
theorem mem_chunk_semantically {enc : String → List ℕ} {dec : List ℕ → String}
    {content : String} {post : Post} {content_type : String} {c : Chunk}
    (hc : c ∈ chunk_semantically enc dec content post content_type) :
    c.chunk_type = "semantic_" ++ content_type ∧
    c.topic_tags = [content_type] ∧
    ∃ t : String, c.chunk_text = pyStrip t ∧ 20 ≤ (pyStrip t).length ∧
      c.content_quality = some (assess_content_quality t post) := by
  simp only [chunk_semantically] at hc
  rcases List.mem_filterMap.mp hc with ⟨p, hp, hsome⟩
  by_cases hlen : (pyStrip p.2).length < 20
  · rw [if_pos hlen] at hsome
    exact absurd hsome (by simp)
  · rw [if_neg hlen] at hsome
    have hcc := Option.some.inj hsome
    subst hcc
    exact ⟨rfl, rfl, p.2, rfl, by omega, rfl⟩

/-- Helper: the shape of the chunk produced by `_create_high_value_chunk`. -/
theorem create_high_value_chunk_shape {post : Post} {c : Chunk}
    (h : create_high_value_chunk post = some c) :
    c.chunk_type = "high_value" ∧
    c.chunk_text = (if truthyOpt post.transcript then post.transcript.getD ""
                    else post.caption_text.getD "") ∧
    c.topic_tags = ["viral", "high_engagement"] ∧
    c.content_quality = some 1 := by
  unfold create_high_value_chunk at h
  by_cases hcond : ¬ truthyOpt post.caption_text ∧ ¬ truthyOpt post.transcript
  · rw [if_pos hcond] at h
    exact absurd h (by simp)
  · rw [if_neg hcond] at h
    have hcc := Option.some.inj h
    subst hcc
    exact ⟨rfl, rfl, rfl, rfl⟩

/-- Helper: a chunk of `post_chunks` comes from the caption pass, the
transcript pass, or the high-value pass. -/
theorem mem_post_chunks_cases {enc : String → List ℕ} {dec : List ℕ → String}
    {post : Post} {c : Chunk} (hc : c ∈ post_chunks enc dec post) :
    c ∈ chunk_semantically enc dec (post.caption_text.getD "") post "caption" ∨
    c ∈ chunk_semantically enc dec (post.transcript.getD "") post "transcript" ∨
    create_high_value_chunk post = some c := by
  unfold post_chunks at hc
  rcases List.mem_append.mp hc with h12 | h3
  · rcases List.mem_append.mp h12 with h1 | h2
    · left
      by_cases ht : truthyOpt post.caption_text
      · rwa [if_pos ht] at h1
      · rw [if_neg ht] at h1
        simp at h1
    · right; left
      by_cases ht : truthyOpt post.transcript
      · rwa [if_pos ht] at h2
      · rw [if_neg ht] at h2
        simp at h2
  · right; right
    by_cases hcond : 1000 < post.likes ∨ 500 < post.engagement_rate
    · rw [if_pos hcond] at h3
      cases hhv : create_high_value_chunk post with
      | none =>
        rw [hhv] at h3
        simp at h3
      | some hv =>
        rw [hhv] at h3
        simp only [List.mem_singleton] at h3
        rw [h3]
    · rw [if_neg hcond] at h3
      simp at h3

/-- Claim C5 counterexample: a viral post whose caption strips to 4 characters
(below the 20-character threshold) still contributes a `high_value` chunk with
that short text to the Chunk Builder's output, because
`_create_high_value_chunk` performs no length filtering. -/
theorem C5_counterexample :
    (chunk_content_strategically charEncode charDecode [tinyViralPost]).map
      (fun c => (c.chunk_type, c.chunk_text)) = [("high_value", "tip!")] ∧
    (pyStrip "tip!").length < 20 := by
  with_unfolding_all decide

/-- Claim C5 (amended): every fragment shorter than 20 characters after
trimming is discarded from the semantic (caption/transcript) chunking passes
and never appears as a non-`high_value` chunk; `high_value` chunks are exempt
from the minimum-length filter and carry the whole caption/transcript uncut. -/
theorem C5_semantic_min_length (enc : String → List ℕ) (dec : List ℕ → String)
    (posts : List Post) (c : Chunk)
    (hc : c ∈ chunk_content_strategically enc dec posts)
    (hty : c.chunk_type ≠ "high_value") :
    20 ≤ (pyStrip c.chunk_text).length := by
  unfold chunk_content_strategically at hc
  rcases List.mem_flatten.mp hc with ⟨pc, hpc, hcpc⟩
  rcases List.mem_map.mp hpc with ⟨post, _hpost, rfl⟩
  rcases mem_post_chunks_cases hcpc with h | h | h
  · rcases mem_chunk_semantically h with ⟨_, _, t, htext, hlen, _⟩
    rw [htext, pyStrip_pyStrip]
    exact hlen
  · rcases mem_chunk_semantically h with ⟨_, _, t, htext, hlen, _⟩
    rw [htext, pyStrip_pyStrip]
    exact hlen
  · rcases create_high_value_chunk_shape h with ⟨hcty, _⟩
    exact absurd hcty hty

/-- Claim C5 witness: the `semantic_caption` chunk built from `plainPost` is in
the builder's output, is not `high_value`, and its trimmed text is at least 20
characters, via `C5_semantic_min_length` with hypotheses discharged by
evaluation. -/
theorem C5_witness :
    w5Chunk ∈ chunk_content_strategically charEncode charDecode [plainPost] ∧
    w5Chunk.chunk_type ≠ "high_value" ∧
    20 ≤ (pyStrip w5Chunk.chunk_text).length :=
  ⟨by with_unfolding_all decide, by with_unfolding_all decide,
   C5_semantic_min_length charEncode charDecode [plainPost] w5Chunk
     (by with_unfolding_all decide) (by with_unfolding_all decide)⟩

/-- Helper: a semantic chunk type never equals `"high_value"`, whatever the
content type suffix. -/
theorem semantic_ne_high_value (ct : String) :
    ("semantic_" ++ ct) ≠ "high_value" := by
  intro h
  have hdata := congrArg String.data h
  rw [String.data_append] at hdata
  have hh := congrArg List.head? hdata
  simp at hh

/-- Helper: no chunk of `_chunk_semantically` is typed `high_value`. -/
theorem filter_high_value_chunk_semantically (enc : String → List ℕ)
    (dec : List ℕ → String) (content : String) (post : Post) (ct : String) :
    (chunk_semantically enc dec content post ct).filter
      (fun c => c.chunk_type == "high_value") = [] := by
  rw [List.filter_eq_nil_iff]
  intro c hcmem
  rcases mem_chunk_semantically hcmem with ⟨hty, _⟩
  rw [hty]
  simp only [beq_iff_eq]
  exact semantic_ne_high_value ct

/-- Claim C6: a post whose likes exceed 1000 or whose engagement rate exceeds
500, and which has a (truthy) caption or transcript, contributes exactly one
additional `high_value` chunk: its text is the whole transcript when present,
otherwise the whole caption, uncut, with topic tags `viral`/`high_engagement`
and quality fixed at `1.0`. In particular (spec Scenario A) a post with
likes 1500, caption `"Check this out! #growth"` and no transcript yields one
`semantic_caption` chunk plus one `high_value` chunk carrying the caption. -/
theorem C6_high_value_chunk :
    (∀ (enc : String → List ℕ) (dec : List ℕ → String) (post : Post),
      (1000 < post.likes ∨ 500 < post.engagement_rate) →
      (truthyOpt post.caption_text = true ∨ truthyOpt post.transcript = true) →
      ((post_chunks enc dec post).filter
          (fun c => c.chunk_type == "high_value")).length = 1 ∧
      (∀ c ∈ post_chunks enc dec post, c.chunk_type = "high_value" →
        c.chunk_text = (if truthyOpt post.transcript then post.transcript.getD ""
                        else post.caption_text.getD "") ∧
        c.topic_tags = ["viral", "high_engagement"] ∧
        c.content_quality = some 1)) ∧
    (chunk_content_strategically charEncode charDecode [scenarioAPost]).map
        (fun c => (c.chunk_type, c.chunk_text)) =
      [("semantic_caption", "Check this out! #growth"),
       ("high_value", "Check this out! #growth")] := by
  constructor
  · intro enc dec post hcond hcontent
    have hnc : ¬ (¬ truthyOpt post.caption_text ∧ ¬ truthyOpt post.transcript) := by
      rcases hcontent with h | h
      · exact fun hcc => hcc.1 h
      · exact fun hcc => hcc.2 h
    obtain ⟨hv, hhv⟩ : ∃ hv, create_high_value_chunk post = some hv := by
      unfold create_high_value_chunk
      rw [if_neg hnc]
      exact ⟨_, rfl⟩
    have hvshape := create_high_value_chunk_shape hhv
    refine ⟨?_, ?_⟩
    · unfold post_chunks
      rw [if_pos hcond, hhv, List.filter_append, List.filter_append]
      have h1 : (if truthyOpt post.caption_text = true then
          chunk_semantically enc dec (post.caption_text.getD "") post "caption"
        else []).filter (fun c => c.chunk_type == "high_value") = [] := by
        split
        · exact filter_high_value_chunk_semantically enc dec _ post "caption"
        · rfl
      have h2 : (if truthyOpt post.transcript = true then
          chunk_semantically enc dec (post.transcript.getD "") post "transcript"
        else []).filter (fun c => c.chunk_type == "high_value") = [] := by
        split
        · exact filter_high_value_chunk_semantically enc dec _ post "transcript"
        · rfl
      rw [h1, h2]
      simp [List.filter_cons, hvshape.1]
    · intro c hcmem hcty
      rcases mem_post_chunks_cases hcmem with h | h | h
      · rcases mem_chunk_semantically h with ⟨hty, _⟩
        exact absurd (hty.symm.trans hcty) (semantic_ne_high_value _)
      · rcases mem_chunk_semantically h with ⟨hty, _⟩
        exact absurd (hty.symm.trans hcty) (semantic_ne_high_value _)
      · have hsh := create_high_value_chunk_shape h
        exact ⟨hsh.2.1, hsh.2.2.1, hsh.2.2.2⟩
  · with_unfolding_all decide

/-- Claim C6 witness: Scenario A's post satisfies both hypotheses of the
general statement, and `post_chunks` on it contains exactly one `high_value`
chunk. -/
theorem C6_witness :
    ((post_chunks charEncode charDecode scenarioAPost).filter
        (fun c => c.chunk_type == "high_value")).length = 1 :=
  (C6_high_value_chunk.1 charEncode charDecode scenarioAPost
    (Or.inl (by decide)) (Or.inl (by with_unfolding_all decide))).1

/-- Helper: with a positive window size and enough fuel, the token windows
concatenate back to the whole input. -/
theorem windowChunksAux_flatten {n : ℕ} (hn : 0 < n) :
    ∀ (fuel : ℕ) (l : List α), l.length ≤ fuel →
      (windowChunksAux n fuel l).flatten = l := by
  intro fuel
  induction fuel with
  | zero =>
    intro l hl
    have hnil : l = [] := List.eq_nil_of_length_eq_zero (Nat.le_zero.mp hl)
    subst hnil
    rfl
  | succ fuel ih =>
    intro l hl
    cases l with
    | nil => rfl
    | cons a l' =>
      have hne : ¬ n = 0 := Nat.pos_iff_ne_zero.mp hn
      simp only [windowChunksAux, hne, ite_false, List.flatten_cons]
      have hfuel : ((a :: l').drop n).length ≤ fuel := by
        rw [List.length_drop]
        simp only [List.length_cons]
        simp only [List.length_cons] at hl
        omega
      rw [ih _ hfuel, List.take_append_drop]

/-- Helper: every token window has at most `n` tokens. -/
theorem windowChunksAux_mem_length {n fuel : ℕ} {l c : List α}
    (hc : c ∈ windowChunksAux n fuel l) : c.length ≤ n := by
  induction fuel generalizing l with
  | zero => cases l <;> simp [windowChunksAux] at hc
  | succ fuel ih =>
    cases l with
    | nil => simp [windowChunksAux] at hc
    | cons a l' =>
      by_cases hne : n = 0
      · simp [windowChunksAux, hne] at hc
      · simp only [windowChunksAux, hne, ite_false] at hc
        rcases List.mem_cons.mp hc with rfl | hc2
        · rw [List.length_take]
          exact min_le_left n _
        · exact ih hc2

/-- Helper: folding string concatenation over decoded windows equals decoding
the flattened windows, for a concatenation-homomorphic decoder. -/
theorem foldr_append_map_dec (dec : List ℕ → String)
    (hdecnil : dec [] = "")
    (hhom : ∀ a b : List ℕ, dec (a ++ b) = dec a ++ dec b)
    (chunks : List (List ℕ)) :
    ((chunks.map dec).foldr (· ++ ·) "") = dec chunks.flatten := by
  induction chunks with
  | nil => simp [hdecnil]
  | cons x xs ih =>
    rw [List.map_cons, List.foldr_cons, ih, List.flatten_cons, hhom]

/-- Claim C4: for every text and every positive window size `n`, the fragments
of `_chunk_by_tokens` are the decodings of contiguous, non-overlapping windows
of at most `n` tokens whose concatenation is exactly the token encoding of the
text; under the tokenizer stability assumptions (decoding is
concatenation-homomorphic and inverts encoding), concatenating the fragments
in order reconstructs the text, and the empty input yields the empty
sequence. -/
theorem C4_chunk_roundtrip (enc : String → List ℕ) (dec : List ℕ → String)
    (hencnil : enc "" = [])
    (hhom : ∀ a b : List ℕ, dec (a ++ b) = dec a ++ dec b)
    (hround : ∀ t : String, dec (enc t) = t)
    (T : String) (n : ℕ) (hn : 0 < n) :
    (windowChunks n (enc T)).flatten = enc T ∧
    (∀ c ∈ windowChunks n (enc T), c.length ≤ n) ∧
    ((chunk_by_tokens enc dec T n).foldr (· ++ ·) "") = T ∧
    chunk_by_tokens enc dec "" n = [] := by
  have hdecnil : dec [] = "" := by
    have hr := hround ""
    rwa [hencnil] at hr
  refine ⟨windowChunksAux_flatten hn _ _ le_rfl,
    fun c hc => windowChunksAux_mem_length hc, ?_, ?_⟩
  · rw [chunk_by_tokens, foldr_append_map_dec dec hdecnil hhom]
    rw [show windowChunks n (enc T) = windowChunksAux n (enc T).length (enc T) from rfl]
    rw [windowChunksAux_flatten hn _ _ le_rfl]
    exact hround T
  · rw [chunk_by_tokens, hencnil]
    rfl

/-- Helper: the character decoder is concatenation-homomorphic. -/
theorem charDecode_append (a b : List ℕ) :
    charDecode (a ++ b) = charDecode a ++ charDecode b := by
  simp only [charDecode]
  rw [List.map_append]
  rfl

/-- Helper: the character decoder inverts the character encoder. -/
theorem charDecode_charEncode (t : String) : charDecode (charEncode t) = t := by
  simp only [charDecode, charEncode, List.map_map, Function.comp_def]
  rw [List.map_id'' (fun c => Char.ofNat_toNat c)]
  rfl

/-- Claim C4 witness: the round-trip at a concrete text with window size 2,
through `C4_chunk_roundtrip` with the character tokenizer discharging every
hypothesis. -/
theorem C4_witness :
    ((chunk_by_tokens charEncode charDecode "hello world" 2).foldr (· ++ ·) "") =
      "hello world" :=
  (C4_chunk_roundtrip charEncode charDecode rfl charDecode_append
    charDecode_charEncode "hello world" 2 (by decide)).2.2.1

/-- Claim C8 counterexample: start from a fully saved knowledge base of one
chunk, then run only the first write (`faiss.write_index`) of a new save whose
index holds two vectors — modelling a failure between the two sequential
writes. `load_knowledge_base` accepts the resulting state (it performs no
consistency check), yet pairs the new two-vector index with the old one-chunk
metadata. -/
theorem C8_counterexample :
    load_knowledge_base
        (save_step_index 2 (save_knowledge_base 1 [exampleChunk] ⟨none, none⟩)) =
      some (2, [exampleChunk]) ∧ (2 : ℕ) ≠ ([exampleChunk]).length :=
  ⟨rfl, by decide⟩

/-- Claim C8 (amended): `_save_knowledge_base` is not atomic — it overwrites
the index artifact and then the metadata artifact in place, so a save
interrupted between the two writes leaves the new index paired with the
previous metadata, and `load_knowledge_base` accepts that state, which is
inconsistent whenever the new vector count differs from the old chunk
count. -/
theorem C8_save_not_atomic (fs : KBFiles) (n n' : ℕ) (chunks : List Chunk)
    (h : n' ≠ chunks.length) :
    load_knowledge_base (save_step_index n' (save_knowledge_base n chunks fs)) =
      some (n', chunks) ∧ n' ≠ chunks.length :=
  ⟨rfl, h⟩

/-- Claim C8 witness: a concrete interrupted save, via `C8_save_not_atomic`
with its hypothesis discharged by evaluation. -/
theorem C8_witness :
    load_knowledge_base
        (save_step_index 3 (save_knowledge_base 1 [chunkA] ⟨none, none⟩)) =
      some (3, [chunkA]) ∧ (3 : ℕ) ≠ ([chunkA]).length :=
  C8_save_not_atomic ⟨none, none⟩ 1 3 [chunkA] (by decide)

set_option maxRecDepth 20000 in
/-- Claim C9 counterexample: a build in which every batch falls back to the
384-dimensional local model still reports `embedding_dimension = 1536` in its
summary: `self.embedding_dimension` is assigned once in `__init__` and never
updated from the vectors actually generated. -/
theorem C9_counterexample :
    create_knowledge_base charEncode charDecode (fun _ => none)
        (fun _ => List.replicate 384 0) 7 [plainPost] =
      Except.ok { creator_id := 7, total_chunks := 1,
                  chunk_types := ["semantic_caption"],
                  embedding_dimension := 1536 } ∧
    (generate_embeddings (fun _ => none) (fun _ => List.replicate 384 0)
        ((chunk_content_strategically charEncode charDecode [plainPost]).map
          Chunk.chunk_text)).map List.length = [384] ∧
    (384 : ℕ) ≠ 1536 := by
  with_unfolding_all decide

/-- Claim C9 (amended): the `embedding_dimension` of every successful build
summary is the constant 1536 (the configured primary-model dimension),
regardless of which embedding path produced the indexed vectors. -/
theorem C9_reported_dimension (enc : String → List ℕ) (dec : List ℕ → String)
    (remote : List String → Option (List (List ℚ))) (localModel : String → List ℚ)
    (creator_id : ℤ) (posts : List Post) (s : BuildSummary)
    (h : create_knowledge_base enc dec remote localModel creator_id posts =
      Except.ok s) :
    s.embedding_dimension = 1536 := by
  simp only [create_knowledge_base] at h
  cases hm : (npShape (generate_embeddings remote localModel
      ((chunk_content_strategically enc dec posts).map Chunk.chunk_text))).get? 1 with
  | none =>
    rw [hm] at h
    exact absurd h (by simp)
  | some d =>
    rw [hm] at h
    have hs := Except.ok.inj h
    rw [← hs]

set_option maxRecDepth 20000 in
/-- Claim C9 witness: a concrete successful build (the remote embedder
succeeds), via `C9_reported_dimension` with the hypothesis discharged by
evaluation. -/
theorem C9_witness :
    ({ creator_id := 7, total_chunks := 1, chunk_types := ["semantic_caption"],
       embedding_dimension := 1536 } : BuildSummary).embedding_dimension = 1536 :=
  C9_reported_dimension charEncode charDecode (fun b => some (b.map fun _ => [0]))
    (fun _ => [0]) 7 [plainPost]
    { creator_id := 7, total_chunks := 1, chunk_types := ["semantic_caption"],
      embedding_dimension := 1536 }
    (by with_unfolding_all decide)

/-- Claim C10: for every input on which the Chunk Builder yields zero chunks
(for example an empty posts list, posts that all lack a truthy caption and
transcript, or posts whose only fragments are filtered out as noise),
`create_knowledge_base` raises an exception during index construction
(`embeddings.shape[1]` on the empty matrix, whose shape is the single-element
tuple `(0,)`) instead of returning a build summary. -/
theorem C10_empty_build_raises (enc : String → List ℕ) (dec : List ℕ → String)
    (remote : List String → Option (List (List ℚ))) (localModel : String → List ℚ)
    (creator_id : ℤ) (posts : List Post)
    (h : chunk_content_strategically enc dec posts = []) :
    create_knowledge_base enc dec remote localModel creator_id posts =
      Except.error "IndexError: tuple index out of range" := by
  simp [create_knowledge_base, h, generate_embeddings, windowChunks,
    windowChunksAux, npShape]

/-- Claim C10 witness: a single post whose caption is truthy but strips to only
2 characters — so its lone fragment is filtered as noise and the builder
yields zero chunks — makes the build raise, via `C10_empty_build_raises` with
the zero-chunk hypothesis discharged by evaluation. -/
theorem C10_witness :
    create_knowledge_base charEncode charDecode (fun b => some (b.map fun _ => [0]))
        (fun _ => [0]) 3 [{ caption_text := some "hi" }] =
      Except.error "IndexError: tuple index out of range" :=
  C10_empty_build_raises charEncode charDecode (fun b => some (b.map fun _ => [0]))
    (fun _ => [0]) 3 [{ caption_text := some "hi" }] (by with_unfolding_all decide)

end CreatorCoach
